import Mathlib

/-!
Shallow embedding of `src/addressBook.py` (a command-line contact manager)
and verification of its specification claims.

Python strings are modelled as Lean `String` / `List Char`; Python's
exceptions become an explicit error type `PyErr` carried in `Except` or
returned alongside the (possibly partially mutated) state; the in-place
mutation of records and of the book dictionary becomes explicit state
passing.  `dict` is modelled as an insertion-ordered association list
(CPython dicts preserve insertion order); `pickle` is modelled as an
explicit structural serialization into a tree type `PVal`.
-/

set_option autoImplicit false

namespace AB

/-- ASCII whitespace as recognised by Python's `str.split()` / `str.strip()`
(we model the ASCII fragment; Python additionally treats some Unicode
spaces as whitespace). -/
def pyIsSpace (c : Char) : Bool :=
  c = ' ' || c = '\t' || c = '\n' || c = '\x0d' || c = '\x0b' || c = '\x0c'

/-- Decimal digit as matched by the regex `\d` in `^\d{10}$`.  We model the
ASCII fragment `0-9` (Python's `\d` additionally matches other Unicode
decimal digits). -/
def pyIsDigit (c : Char) : Bool :=
  '0' ≤ c && c ≤ '9'

/-- `str.strip()` on a list of characters: drop leading and trailing
whitespace. -/
def pyStrip (l : List Char) : List Char :=
  ((l.dropWhile pyIsSpace).reverse.dropWhile pyIsSpace).reverse

/-- Helper for `pySplit`: `acc` holds the characters of the word currently
being read, in reverse order. -/
def pySplitAux : List Char → List Char → List (List Char)
  | [], acc => if acc = [] then [] else [acc.reverse]
  | c :: rest, acc =>
    if pyIsSpace c then
      if acc = [] then pySplitAux rest []
      else acc.reverse :: pySplitAux rest []
    else pySplitAux rest (c :: acc)

/-- Python `str.split()` with no argument: split on runs of whitespace,
discarding empty tokens. -/
def pySplit (s : String) : List String :=
  (pySplitAux s.data []).map fun l => ⟨l⟩

/-- The Python exception classes that occur in the program. -/
inductive ErrKind where
  | valueError
  | keyError
  | indexError
  | fileNotFoundError
  | osError
  | unpicklingError
  deriving DecidableEq, Repr

/-- A raised Python exception: its class and its `str(e)` message. -/
structure PyErr where
  kind : ErrKind
  msg : String
  deriving DecidableEq, Repr

/-- The exception classes caught by the `input_error` decorator:
`except (KeyError, ValueError, IndexError)`. -/
def caughtByInputError (k : ErrKind) : Bool :=
  match k with
  | .valueError | .keyError | .indexError => true
  | _ => false

/-! ### Field value types -/

/-- `Phone.validate`: `bool(re.match(r'^\d{10}$', value))`.  `re.match`
anchors at the start of the string, and Python's `$` matches at the end of
the string **or just before a single newline at the end of the string**,
so the pattern also accepts ten digits followed by one trailing `'\n'`. -/
def phoneValidate (s : String) : Bool :=
  (s.data.take 10).all pyIsDigit &&
    (s.data.drop 10 = [] && s.data.length = 10 || s.data.drop 10 = ['\n'])

/-- The message of the `ValueError` raised by `Phone.__init__`. -/
def phoneErrMsg (s : String) : String :=
  "Invalid phone number: " ++ s ++ ". It must contain exactly 10 digits."

/-- `Phone(value)`: validate, then store `value` unchanged (we represent a
`Phone` object by its `.value` string). -/
def mkPhone (s : String) : Except PyErr String :=
  if phoneValidate s then .ok s
  else .error ⟨.valueError, phoneErrMsg s⟩

/-- `Name.__init__`'s validity test: `value.strip()` must be non-empty. -/
def nameValid (s : String) : Bool :=
  !(pyStrip s.data).isEmpty

/-- `Name(value)`: raise `ValueError` on empty/whitespace-only input,
otherwise store `value` unchanged. -/
def mkName (s : String) : Except PyErr String :=
  if nameValid s then .ok s
  else .error ⟨.valueError, "Name cannot be empty or just whitespace."⟩

/-! ### Dates

`datetime` values in this program always have a zero time component
(`strptime "%d.%m.%Y"` and `.date()` conversions), so we model them as
calendar dates. -/

/-- A calendar date (proleptic Gregorian, as used by `datetime.date`). -/
structure Date where
  year : Nat
  month : Nat
  day : Nat
  deriving DecidableEq, Repr

/-- Gregorian leap-year rule. -/
def isLeapYear (y : Nat) : Bool :=
  y % 4 = 0 && (y % 100 ≠ 0 || y % 400 = 0)

/-- Number of days in a month of a given year. -/
def daysInMonth (y m : Nat) : Nat :=
  if m = 2 then (if isLeapYear y then 29 else 28)
  else if m = 4 || m = 6 || m = 9 || m = 11 then 30
  else 31

/-- Validity of a `datetime.date` triple (`datetime` requires
`1 <= year <= 9999`; we do not bound the year above, as no claim touches
year 9999 overflow). -/
def validDate (d : Date) : Bool :=
  1 ≤ d.year && 1 ≤ d.month && d.month ≤ 12 && 1 ≤ d.day && d.day ≤ daysInMonth d.year d.month

/-- Comparison of dates, as Python compares `date` objects
(chronological, i.e. lexicographic on (year, month, day)). -/
def dateLE (a b : Date) : Bool :=
  a.year < b.year ||
    (a.year = b.year &&
      (a.month < b.month || (a.month = b.month && a.day ≤ b.day)))

/-- The day after `d` (Gregorian successor, used to model `timedelta`). -/
def nextDay (d : Date) : Date :=
  if d.day < daysInMonth d.year d.month then ⟨d.year, d.month, d.day + 1⟩
  else if d.month < 12 then ⟨d.year, d.month + 1, 1⟩
  else ⟨d.year + 1, 1, 1⟩

/-- `d + timedelta(days=n)`. -/
def addDays (d : Date) : Nat → Date
  | 0 => d
  | n + 1 => nextDay (addDays d n)

/-- `datetime.replace(year=y)` followed by `.date()`: keeps month and day,
raising `ValueError` when the result is not a valid date (e.g. Feb 29
mapped into a non-leap year). -/
def replaceYear (d : Date) (y : Nat) : Except PyErr Date :=
  if validDate ⟨y, d.month, d.day⟩ then .ok ⟨y, d.month, d.day⟩
  else .error ⟨.valueError, "day is out of range for month"⟩

/-- Numeric value of a digit string (most significant first). -/
def natOfDigits (l : List Char) : Nat :=
  l.foldl (fun n c => n * 10 + (c.toNat - '0'.toNat)) 0

/-- `Birthday(value)`: `datetime.strptime(value, "%d.%m.%Y")`, any
`ValueError` replaced by the fixed message.  CPython's `strptime` compiles
the format to the regex `(3[01]|[12]\d|0[1-9]|[1-9])\.(1[0-2]|0[1-9]|[1-9])\.(\d\d\d\d)`
matched against the whole string, then builds the `datetime`, which
re-raises `ValueError` when the day is out of range for the month or the
year is 0. -/
def mkBirthday (s : String) : Except PyErr Date :=
  match s.splitOn "." with
  | [ds, ms, ys] =>
    if ds.data ≠ [] && ds.data.length ≤ 2 && ds.data.all pyIsDigit &&
        ms.data ≠ [] && ms.data.length ≤ 2 && ms.data.all pyIsDigit &&
        ys.data.length = 4 && ys.data.all pyIsDigit then
      if 1 ≤ natOfDigits ds.data && natOfDigits ds.data ≤ 31 &&
          1 ≤ natOfDigits ms.data && natOfDigits ms.data ≤ 12 &&
          validDate ⟨natOfDigits ys.data, natOfDigits ms.data, natOfDigits ds.data⟩ then
        .ok ⟨natOfDigits ys.data, natOfDigits ms.data, natOfDigits ds.data⟩
      else .error ⟨.valueError, "Invalid date format. Use DD.MM.YYYY"⟩
    else .error ⟨.valueError, "Invalid date format. Use DD.MM.YYYY"⟩
  | _ => .error ⟨.valueError, "Invalid date format. Use DD.MM.YYYY"⟩

/-! ### Record -/

/-- One contact: `Record` from the source.  `name` is the `.value` of the
`Name` field, `phones` the list of `.value`s of the `Phone` objects, and
`birthday` the optional parsed date. -/
structure Record where
  name : String
  phones : List String
  birthday : Option Date
  deriving DecidableEq, Repr

/-- `Record(name)`: validates the name, starts with no phones and no
birthday. -/
def mkRecord (name : String) : Except PyErr Record :=
  (mkName name).map fun n => ⟨n, [], none⟩

/-- `Record.add_phone`: validate and append. -/
def Record.addPhone (r : Record) (p : String) : Except PyErr Record :=
  (mkPhone p).map fun v => { r with phones := r.phones ++ [v] }

/-- `Record.remove_phone`: keep the entries whose value differs. -/
def Record.removePhone (r : Record) (p : String) : Record :=
  { r with phones := r.phones.filter fun q => q ≠ p }

/-- Core of `Record.edit_phone`: scan the phone list for the first entry
equal to `old`; on a hit, construct `Phone(new)` (which may raise) and
replace the entry, stopping (`break`).  If the constructor raises, no
entry has been replaced — the error leaves the list as it was, which the
caller models by discarding the result. -/
def editPhoneList (old new : String) : List String → Except PyErr (List String)
  | [] => .ok []
  | p :: ps =>
    if p = old then (mkPhone new).map fun v => v :: ps
    else (editPhoneList old new ps).map fun l => p :: l

/-- `Record.edit_phone(old, new)`. -/
def Record.editPhone (r : Record) (old new : String) : Except PyErr Record :=
  (editPhoneList old new r.phones).map fun l => { r with phones := l }

/-- `Record.find_phone`. -/
def Record.findPhone (r : Record) (p : String) : Option String :=
  r.phones.find? fun q => q = p

/-- `Record.add_birthday`: validate and set/overwrite. -/
def Record.addBirthdayField (r : Record) (s : String) : Except PyErr Record :=
  (mkBirthday s).map fun d => { r with birthday := some d }

/-! ### AddressBook

`AddressBook(UserDict)` is a dict from the name string to the record.
CPython dicts have unique keys and preserve insertion order; we model the
underlying `self.data` as an association list, with assignment replacing
the value in place when the key is present and appending otherwise. -/

/-- The `self.data` dict of an `AddressBook`. -/
abbrev Book := List (String × Record)

/-- `AddressBook()`: empty book. -/
def emptyBook : Book := []

/-- `self.data[k] = v`: dict assignment. -/
def dictSet (b : Book) (k : String) (v : Record) : Book :=
  match b with
  | [] => [(k, v)]
  | (k', v') :: rest =>
    if k' = k then (k, v) :: rest else (k', v') :: dictSet rest k v

/-- `self.data.get(name)` / `AddressBook.find`. -/
def findBook (b : Book) (k : String) : Option Record :=
  match b with
  | [] => none
  | (k', v') :: rest => if k' = k then some v' else findBook rest k

/-- `del self.data[k]` (the key occurs once in a dict). -/
def dictDel (b : Book) (k : String) : Book :=
  match b with
  | [] => []
  | (k', v') :: rest => if k' = k then rest else (k', v') :: dictDel rest k

/-- `AddressBook.add_record`: `self.data[record.name.value] = record`. -/
def addRecord (b : Book) (r : Record) : Book :=
  dictSet b r.name r

/-- `AddressBook.delete`: delete the entry if present. -/
def deleteRecord (b : Book) (k : String) : Book :=
  if (findBook b k).isSome then dictDel b k else b

/-- Is this year's occurrence `d` of a birthday inside
`[today, today + 7 days]` (inclusive)? -/
def inWindow (today d : Date) : Bool :=
  dateLE today d && dateLE d (addDays today 7)

/-- `AddressBook.get_upcoming_birthdays`, with `today` passed explicitly
instead of read from the wall clock.  For each record in iteration order
whose `birthday` is set, `record.birthday.value.replace(year=today.year)`
is computed — a raised `ValueError` (Feb 29 into a non-leap year)
propagates immediately — and the record's name is collected when the
resulting date lies in the inclusive 7-day window. -/
def getUpcomingBirthdays (b : Book) (today : Date) : Except PyErr (List String) :=
  match b with
  | [] => .ok []
  | (_, r) :: rest =>
    match r.birthday with
    | none => getUpcomingBirthdays rest today
    | some bd =>
      match replaceYear bd today.year with
      | .error e => .error e
      | .ok d =>
        if inWindow today d then
          (getUpcomingBirthdays rest today).map fun l => r.name :: l
        else getUpcomingBirthdays rest today

/-! ### Persistence

`pickle` serializes the whole object graph and re-creates it losslessly;
we model the wire format explicitly as a tree of primitive values, with a
decoder that fails with `UnpicklingError` on any shape the encoder does
not produce (modelling corrupted snapshot bytes). -/

/-- Pickled values: the shapes reachable from an `AddressBook`. -/
inductive PVal where
  | pStr : String → PVal
  | pNone : PVal
  | pDate : Nat → Nat → Nat → PVal
  | pList : List PVal → PVal

/-- Encoding of one record. -/
def pickleRecord (r : Record) : PVal :=
  .pList [.pStr r.name, .pList (r.phones.map .pStr),
    match r.birthday with
    | none => .pNone
    | some d => .pDate d.year d.month d.day]

/-- Encoding of a book: the ordered key/value pairs of `self.data`. -/
def pickleBook (b : Book) : PVal :=
  .pList (b.map fun kv => .pList [.pStr kv.1, pickleRecord kv.2])

/-- The error produced by `pickle.load` on malformed data. -/
def unpickleErr : PyErr := ⟨.unpicklingError, "invalid load key."⟩

/-- Decode a list of phone values. -/
def unpicklePhones : List PVal → Except PyErr (List String)
  | [] => .ok []
  | .pStr s :: rest => (unpicklePhones rest).map fun l => s :: l
  | _ :: _ => .error unpickleErr

/-- Decode one record. -/
def unpickleRecord : PVal → Except PyErr Record
  | .pList [.pStr n, .pList ps, bd] => do
    let phones ← unpicklePhones ps
    match bd with
    | .pNone => pure ⟨n, phones, none⟩
    | .pDate y m d => pure ⟨n, phones, some ⟨y, m, d⟩⟩
    | _ => .error unpickleErr
  | _ => .error unpickleErr

/-- Decode the entry list of a book. -/
def unpickleEntries : List PVal → Except PyErr Book
  | [] => .ok []
  | .pList [.pStr k, rv] :: rest => do
    let r ← unpickleRecord rv
    let b ← unpickleEntries rest
    pure ((k, r) :: b)
  | _ :: _ => .error unpickleErr

/-- `pickle.load` on the snapshot bytes. -/
def unpickleBook : PVal → Except PyErr Book
  | .pList entries => unpickleEntries entries
  | _ => .error unpickleErr

/-- The state of the snapshot file on disk. -/
inductive FS where
  | missing
  | ioError : PyErr → FS
  | present : PVal → FS

/-- `save_data(book)`: serialize the whole book to the file, overwriting
it. -/
def saveData (b : Book) : FS :=
  .present (pickleBook b)

/-- `open(filename, "rb")` followed by reading: a missing file raises
`FileNotFoundError`, other I/O failures raise their own `OSError`. -/
def openRead (fs : FS) : Except PyErr PVal :=
  match fs with
  | .missing => .error ⟨.fileNotFoundError, "No such file or directory: addressbook.pkl"⟩
  | .ioError e => .error e
  | .present v => .ok v

/-- `load_data`: `try: open + pickle.load  except FileNotFoundError:
return AddressBook()`.  Only `FileNotFoundError` is caught; every other
error propagates. -/
def loadData (fs : FS) : Except PyErr Book :=
  match openRead fs >>= unpickleBook with
  | .ok b => .ok b
  | .error e =>
    if e.kind = .fileNotFoundError then .ok emptyBook else .error e

/-! ### Command handlers

A handler takes the argument tokens and the book and returns either a
result string or a raised exception, together with the book as left
behind (Python mutates the book in place, so mutations performed before
an exception survive it). -/

/-- The message of the `ValueError` raised by tuple unpacking
(`a, b = args`) when the length does not match. -/
def unpackMsg (expected got : Nat) : String :=
  if got < expected then
    "not enough values to unpack (expected " ++ toString expected ++ ", got " ++
      toString got ++ ")"
  else "too many values to unpack (expected " ++ toString expected ++ ")"

/-- `'sep'.join(l)`. -/
def strJoin (sep : String) : List String → String
  | [] => ""
  | x :: xs => xs.foldl (fun a s => a ++ sep ++ s) x

/-- `str.strip()`. -/
def pyStripStr (s : String) : String := ⟨pyStrip s.data⟩

/-- `str.lower()` (ASCII fragment). -/
def pyLower (s : String) : String := ⟨s.data.map Char.toLower⟩

/-- The `input_error` decorator: run the handler; a raised `KeyError`,
`ValueError` or `IndexError` is caught and its `str(e)` returned as the
result; any other exception keeps propagating. -/
def inputError (h : List String → Book → Except PyErr String × Book)
    (args : List String) (b : Book) : Except PyErr String × Book :=
  match h args b with
  | (.error e, b') =>
    if caughtByInputError e.kind then (.ok e.msg, b') else (.error e, b')
  | r => r

/-- `add_contact` before decoration: requires two argument tokens, finds
or creates the record (the freshly created record is inserted into the
book *before* the phone is validated), then appends the validated
phone. -/
def addContactRaw (args : List String) (b : Book) : Except PyErr String × Book :=
  match args with
  | name :: phone :: _ =>
    match findBook b name with
    | some r =>
      match r.addPhone phone with
      | .ok r' => (.ok "Contact updated.", dictSet b name r')
      | .error e => (.error e, b)
    | none =>
      match mkRecord name with
      | .error e => (.error e, b)
      | .ok r0 =>
        let b1 := addRecord b r0
        match r0.addPhone phone with
        | .ok r' => (.ok "Contact added.", dictSet b1 name r')
        | .error e => (.error e, b1)
  | _ => (.error ⟨.valueError, "Please provide both name and phone number."⟩, b)

/-- The decorated `add_contact`. -/
def addContact : List String → Book → Except PyErr String × Book :=
  inputError addContactRaw

/-- `change_contact` before decoration: `name, old_phone, new_phone =
args` (raising on a length mismatch), then `edit_phone` on the found
record; an unknown name answers "Contact not found.". -/
def changeContactRaw (args : List String) (b : Book) : Except PyErr String × Book :=
  match args with
  | [name, oldp, newp] =>
    match findBook b name with
    | some r =>
      match r.editPhone oldp newp with
      | .ok r' => (.ok "Phone updated.", dictSet b name r')
      | .error e => (.error e, b)
    | none => (.ok "Contact not found.", b)
  | _ => (.error ⟨.valueError, unpackMsg 3 args.length⟩, b)

/-- The decorated `change_contact`. -/
def changeContact : List String → Book → Except PyErr String × Book :=
  inputError changeContactRaw

/-- `show_phone` before decoration: `args[0]` raises `IndexError` when no
argument is given. -/
def showPhoneRaw (args : List String) (b : Book) : Except PyErr String × Book :=
  match args with
  | name :: _ =>
    match findBook b name with
    | some r => (.ok (strJoin "; " r.phones), b)
    | none => (.ok "Contact not found.", b)
  | [] => (.error ⟨.indexError, "list index out of range"⟩, b)

/-- The decorated `show_phone`. -/
def showPhone : List String → Book → Except PyErr String × Book :=
  inputError showPhoneRaw

/-- `show_all` before decoration. -/
def showAllRaw (_args : List String) (b : Book) : Except PyErr String × Book :=
  (.ok (strJoin "\n" (b.map fun kv =>
    "Name: " ++ kv.2.name ++ ", Phones: " ++ strJoin ", " kv.2.phones)), b)

/-- The decorated `show_all`. -/
def showAll : List String → Book → Except PyErr String × Book :=
  inputError showAllRaw

/-- `add_birthday` (the handler) before decoration: `name, birthday =
args`, then set the validated birthday on the found record. -/
def addBirthdayRaw (args : List String) (b : Book) : Except PyErr String × Book :=
  match args with
  | [name, bd] =>
    match findBook b name with
    | some r =>
      match r.addBirthdayField bd with
      | .ok r' => (.ok "Birthday added.", dictSet b name r')
      | .error e => (.error e, b)
    | none => (.ok "Contact not found.", b)
  | _ => (.error ⟨.valueError, unpackMsg 2 args.length⟩, b)

/-- The decorated `add_birthday`. -/
def addBirthdayCmd : List String → Book → Except PyErr String × Book :=
  inputError addBirthdayRaw

/-- Zero-padded two-digit rendering, as `%d` / `%m` in `strftime`. -/
def pad2 (n : Nat) : String :=
  if n < 10 then "0" ++ toString n else toString n

/-- `value.strftime('%d.%m.%Y')`. -/
def fmtDate (d : Date) : String :=
  pad2 d.day ++ "." ++ pad2 d.month ++ "." ++ toString d.year

/-- `show_birthday` before decoration. -/
def showBirthdayRaw (args : List String) (b : Book) : Except PyErr String × Book :=
  match args with
  | name :: _ =>
    match findBook b name with
    | some r =>
      match r.birthday with
      | some d => (.ok (fmtDate d), b)
      | none => (.ok "Birthday not found.", b)
    | none => (.ok "Birthday not found.", b)
  | [] => (.error ⟨.indexError, "list index out of range"⟩, b)

/-- The decorated `show_birthday`. -/
def showBirthday : List String → Book → Except PyErr String × Book :=
  inputError showBirthdayRaw

/-- `birthdays` (the handler) before decoration, with `today` passed
explicitly.  The conditional expression in the source parses as
`("Upcoming birthdays: " + ', '.join(upcoming)) if upcoming else
"No upcoming birthdays."`. -/
def birthdaysRaw (today : Date) (_args : List String) (b : Book) :
    Except PyErr String × Book :=
  match getUpcomingBirthdays b today with
  | .error e => (.error e, b)
  | .ok l =>
    if l ≠ [] then (.ok ("Upcoming birthdays: " ++ strJoin ", " l), b)
    else (.ok "No upcoming birthdays.", b)

/-- The decorated `birthdays`. -/
def birthdaysCmd (today : Date) : List String → Book → Except PyErr String × Book :=
  inputError (birthdaysRaw today)

/-! ### The read-eval loop -/

/-- `parse_input`: `cmd, *args = user_input.split()` raises `ValueError`
on an empty token list; the command token is stripped and lowered. -/
def parseInput (s : String) : Except PyErr (String × List String) :=
  match pySplit s with
  | [] => .error ⟨.valueError, "not enough values to unpack (expected at least 1, got 0)"⟩
  | cmd :: args => .ok (pyLower (pyStripStr cmd), args)

/-- Outcome of one iteration of the `while True` loop in `main`: exit the
loop (saving the book), print and continue with the new book state, or
crash on an exception raised outside every handler boundary. -/
inductive StepResult where
  | exit : String → FS → StepResult
  | cont : String → Book → StepResult
  | crash : PyErr → StepResult

/-- Print a decorated handler's outcome and continue the loop — unless an
exception escaped it, which aborts the loop. -/
def runH (r : Except PyErr String × Book) : StepResult :=
  match r with
  | (.ok out, b') => .cont out b'
  | (.error e, _) => .crash e

/-- One iteration of `main`'s loop on input `line` with book `b`
(`today` feeds the `birthdays` handler's wall-clock read). -/
def mainStep (line : String) (b : Book) (today : Date) : StepResult :=
  match parseInput line with
  | .error e => .crash e
  | .ok (cmd, args) =>
    if cmd = "close" || cmd = "exit" then .exit "Good bye!" (saveData b)
    else if cmd = "hello" then .cont "How can I help you?" b
    else if cmd = "add" then runH (addContact args b)
    else if cmd = "change" then runH (changeContact args b)
    else if cmd = "phone" then runH (showPhone args b)
    else if cmd = "all" then runH (showAll args b)
    else if cmd = "add-birthday" then runH (addBirthdayCmd args b)
    else if cmd = "show-birthday" then runH (showBirthday args b)
    else if cmd = "birthdays" then runH (birthdaysCmd today args b)
    else .cont "Invalid command." b

/-! ### Specification-side predicates

These follow the wording of the specification claims (not the source),
for comparison with the embedded code. -/

/-- The spec's phone validity: "a string consisting of exactly 10 decimal
digits". -/
def phoneClaimValid (s : String) : Prop :=
  s.data.length = 10 ∧ ∀ c ∈ s.data, pyIsDigit c

/-- The extra strings the code's regex accepts beyond the spec's wording:
ten digits followed by one trailing newline. -/
def phoneNewlineCase (s : String) : Prop :=
  s.data.length = 11 ∧ (∀ c ∈ s.data.take 10, pyIsDigit c) ∧ s.data.drop 10 = ['\n']

instance (s : String) : Decidable (phoneClaimValid s) := by
  unfold phoneClaimValid; infer_instance

instance (s : String) : Decidable (phoneNewlineCase s) := by
  unfold phoneNewlineCase; infer_instance

/-- Spec wording for `edit_phone`: "replaces the first phone entry whose
value equals old ... and leaves all other entries unchanged". -/
def replaceFirst (old new : String) : List String → List String
  | [] => []
  | p :: ps => if p = old then new :: ps else p :: replaceFirst old new ps

/-- This year's occurrence of a birthday: its month/day replaced into
`today`'s year (the spec's wording for the upcoming-birthday window). -/
def thisYearOccur (today bd : Date) : Date :=
  ⟨today.year, bd.month, bd.day⟩

/-- The spec's AddressBook invariant: every value's internal name matches
its key, and keys are unique. -/
def BookInv (b : Book) : Prop :=
  (∀ p ∈ b, p.2.name = p.1) ∧ (b.map Prod.fst).Nodup

/-- The spec's selection criterion for `get_upcoming_birthdays`: the
record has a birthday and this year's occurrence of it falls within the
inclusive 7-day window. -/
def upcomingPred (today : Date) (p : String × Record) : Bool :=
  match p.2.birthday with
  | some bd => inWindow today (thisYearOccur today bd)
  | none => false

/-! ## Theorems -/

/-! ### Basic equations for the dict operations -/

theorem findBook_nil (k : String) : findBook [] k = none := rfl

theorem findBook_cons (k' : String) (v' : Record) (rest : Book) (k : String) :
    findBook ((k', v') :: rest) k = if k' = k then some v' else findBook rest k := rfl

theorem dictSet_nil (k : String) (v : Record) : dictSet [] k v = [(k, v)] := rfl

theorem dictSet_cons (k' : String) (v' : Record) (rest : Book) (k : String) (v : Record) :
    dictSet ((k', v') :: rest) k v =
      if k' = k then (k, v) :: rest else (k', v') :: dictSet rest k v := rfl

theorem dictDel_nil (k : String) : dictDel [] k = [] := rfl

theorem dictDel_cons (k' : String) (v' : Record) (rest : Book) (k : String) :
    dictDel ((k', v') :: rest) k = if k' = k then rest else (k', v') :: dictDel rest k := rfl

/-- Re-assigning the value that a key already holds leaves the dict
unchanged. -/
theorem dictSet_findBook_self (b : Book) (k : String) (r : Record)
    (h : findBook b k = some r) : dictSet b k r = b := by
  induction b with
  | nil => simp [findBook_nil] at h
  | cons p rest ih =>
    obtain ⟨k', v'⟩ := p
    rw [findBook_cons] at h
    rw [dictSet_cons]
    by_cases hk : k' = k
    · rw [if_pos hk] at h
      rw [if_pos hk]
      cases h
      rw [hk]
    · rw [if_neg hk] at h
      rw [if_neg hk, ih h]

/-! ### C1: phone validation -/

/-- What the code's regex test actually accepts. -/
theorem phoneValidate_true_iff (s : String) :
    phoneValidate s = true ↔ phoneClaimValid s ∨ phoneNewlineCase s := by
  unfold phoneValidate phoneClaimValid phoneNewlineCase
  simp only [Bool.and_eq_true, Bool.or_eq_true, decide_eq_true_eq, List.all_eq_true]
  constructor
  · rintro ⟨hd, ⟨hnil, hlen⟩ | hnl⟩
    · left
      refine ⟨hlen, fun c hc => ?_⟩
      exact hd c (by rwa [List.take_of_length_le (le_of_eq hlen)])
    · right
      have hlen : s.data.length = 11 := by
        have h1 : (s.data.drop 10).length = s.data.length - 10 := List.length_drop 10 s.data
        rw [hnl] at h1
        have h2 : s.data.length - 10 = 1 := h1.symm
        have h3 : ¬ s.data.drop 10 = [] := by rw [hnl]; simp
        have h4 : ¬ s.data.length ≤ 10 := fun hle => h3 (List.drop_eq_nil_of_le hle)
        omega
      exact ⟨hlen, hd, hnl⟩
  · rintro (⟨hlen, hd⟩ | ⟨hlen, hd, hnl⟩)
    · refine ⟨fun c hc => hd c (List.mem_of_mem_take hc), Or.inl ⟨?_, hlen⟩⟩
      exact List.drop_eq_nil_of_le (le_of_eq hlen)
    · exact ⟨hd, Or.inr hnl⟩

/-- C1: `Phone(value)` stores the value unchanged exactly when the
validation regex accepts it, and raises the `InvalidPhoneError` message
otherwise.  Amended from the claim: besides the strings of exactly 10
decimal digits, the regex `^\d{10}$` under `re.match` also accepts ten
digits followed by one trailing newline (Python's `$` matches just before
a final newline), so construction also succeeds there. -/
theorem claim_C1 (s : String) :
    (mkPhone s = .ok s ↔ phoneClaimValid s ∨ phoneNewlineCase s) ∧
    (¬ (phoneClaimValid s ∨ phoneNewlineCase s) →
      mkPhone s = .error ⟨.valueError, phoneErrMsg s⟩) := by
  unfold mkPhone
  by_cases h : phoneValidate s = true
  · rw [if_pos h]
    exact ⟨by simp [(phoneValidate_true_iff s).mp h],
      fun hn => absurd ((phoneValidate_true_iff s).mp h) hn⟩
  · rw [if_neg h]
    refine ⟨⟨fun he => absurd he (by simp), fun hc => ?_⟩, fun _ => rfl⟩
    exact absurd ((phoneValidate_true_iff s).mpr hc) h

/-- C1 counterexample: `"1234567890\n"` is not a string of exactly 10
decimal digits (it has 11 characters, one of them a newline), yet
`Phone` construction succeeds on it, storing it unchanged. -/
theorem claim_C1_counterexample :
    mkPhone "1234567890\n" = .ok "1234567890\n" ∧ ¬ phoneClaimValid "1234567890\n" := by
  refine ⟨rfl, by decide⟩

/-- C1 witness: a concrete rejected string. -/
theorem claim_C1_witness :
    ¬ (phoneClaimValid "12345" ∨ phoneNewlineCase "12345") ∧
    mkPhone "12345" = .error ⟨.valueError, phoneErrMsg "12345"⟩ :=
  ⟨by decide, (claim_C1 "12345").2 (by decide)⟩

/-! ### C2: edit_phone -/

theorem editPhoneList_nil (old new : String) : editPhoneList old new [] = .ok [] := rfl

theorem editPhoneList_cons (old new p : String) (ps : List String) :
    editPhoneList old new (p :: ps) =
      if p = old then (mkPhone new).map fun v => v :: ps
      else (editPhoneList old new ps).map fun l => p :: l := rfl

/-- When no entry equals `old`, the scan never reaches the `Phone(new)`
constructor: the list is returned unchanged and no error can be raised. -/
theorem editPhoneList_not_mem (old new : String) (ps : List String) (h : old ∉ ps) :
    editPhoneList old new ps = .ok ps := by
  induction ps with
  | nil => rfl
  | cons p ps ih =>
    have hp : ¬ p = old := fun hp => h (by rw [hp]; exact List.mem_cons_self old ps)
    rw [editPhoneList_cons, if_neg hp, ih fun hm => h (List.mem_cons_of_mem p hm)]
    rfl

/-- When some entry equals `old`, the first such entry is replaced by the
validated new value, or the validation error is raised. -/
theorem editPhoneList_mem (old new : String) (ps : List String) (h : old ∈ ps) :
    editPhoneList old new ps =
      if phoneValidate new then .ok (replaceFirst old new ps)
      else .error ⟨.valueError, phoneErrMsg new⟩ := by
  induction ps with
  | nil => cases h
  | cons p ps ih =>
    rw [editPhoneList_cons]
    unfold replaceFirst
    by_cases hp : p = old
    · rw [if_pos hp]
      unfold mkPhone
      by_cases hv : phoneValidate new = true
      · rw [if_pos hv, if_pos hv, if_pos hp]
        rfl
      · rw [if_neg hv, if_neg hv]
        rfl
    · have hm : old ∈ ps := (List.mem_cons.mp h).resolve_left fun he => hp he.symm
      rw [if_neg hp, ih hm]
      by_cases hv : phoneValidate new = true
      · rw [if_pos hv, if_pos hv, if_neg hp]
        rfl
      · rw [if_neg hv, if_neg hv]
        rfl

/-- C2 (amended): `edit_phone(old, new)` replaces the first entry equal
to `old` with a validated `Phone(new)`, leaving the other entries
unchanged; it silently no-ops when no entry equals `old` — **even when
`new` is invalid**, because `Phone(new)` is only constructed after a
match is found; it raises `InvalidPhoneError` exactly when some entry
equals `old` and `new` fails validation. -/
theorem claim_C2 (r : Record) (old new : String) :
    (old ∉ r.phones → r.editPhone old new = .ok r) ∧
    (old ∈ r.phones → phoneValidate new = true →
      r.editPhone old new = .ok { r with phones := replaceFirst old new r.phones }) ∧
    (old ∈ r.phones → phoneValidate new = false →
      r.editPhone old new = .error ⟨.valueError, phoneErrMsg new⟩) := by
  unfold Record.editPhone
  refine ⟨fun h => ?_, fun h hv => ?_, fun h hv => ?_⟩
  · rw [editPhoneList_not_mem old new r.phones h]
    rfl
  · rw [editPhoneList_mem old new r.phones h, if_pos hv]
    rfl
  · rw [editPhoneList_mem old new r.phones h, if_neg (by rw [hv]; exact Bool.false_ne_true)]
    rfl

/-- C2 counterexample: with no entry equal to `old` and an invalid `new`,
`edit_phone` does **not** fail — it returns with the record unchanged —
contradicting "fails with InvalidPhoneError whenever new is not a valid
10-digit phone string". -/
theorem claim_C2_counterexample :
    phoneValidate "abc" = false ∧
    Record.editPhone ⟨"alice", ["1111111111"], none⟩ "2222222222" "abc" =
      .ok ⟨"alice", ["1111111111"], none⟩ :=
  ⟨rfl, rfl⟩

/-- C2 witness: the error case does occur when `old` is present. -/
theorem claim_C2_witness :
    Record.editPhone ⟨"alice", ["1111111111"], none⟩ "1111111111" "abc" =
      .error ⟨.valueError, phoneErrMsg "abc"⟩ :=
  (claim_C2 ⟨"alice", ["1111111111"], none⟩ "1111111111" "abc").2.2
    (by simp) (by rfl)

/-! ### C3: the change handler on an absent old number -/

/-- C3: when the contact exists but none of its phone entries equals
`old`, `change_contact` leaves the book (and hence the record's phone
list) unchanged and still answers "Phone updated.", whatever `new` is. -/
theorem claim_C3 (b : Book) (name oldp newp : String) (r : Record)
    (hfind : findBook b name = some r) (hold : oldp ∉ r.phones) :
    changeContact [name, oldp, newp] b = (.ok "Phone updated.", b) := by
  have hedit : r.editPhone oldp newp = .ok r := by
    unfold Record.editPhone
    rw [editPhoneList_not_mem oldp newp r.phones hold]
    rfl
  simp only [changeContact, inputError, changeContactRaw, hfind, hedit,
    dictSet_findBook_self b name r hfind]

/-- C3 witness: a concrete book, an absent old number, and an invalid new
number still answer "Phone updated." with the book unchanged. -/
theorem claim_C3_witness :
    changeContact ["alice", "0000000000", "xyz"]
        [("alice", ⟨"alice", ["2222222222"], none⟩)] =
      (.ok "Phone updated.", [("alice", ⟨"alice", ["2222222222"], none⟩)]) :=
  claim_C3 [("alice", ⟨"alice", ["2222222222"], none⟩)] "alice" "0000000000" "xyz"
    ⟨"alice", ["2222222222"], none⟩ (by rfl) (by simp)

/-! ### C6, C7: persistence -/

theorem bind_ok_eq {α β : Type} (a : α) (f : α → Except PyErr β) :
    (Except.ok a : Except PyErr α) >>= f = f a := rfl

theorem bind_error_eq {α β : Type} (e : PyErr) (f : α → Except PyErr β) :
    (Except.error e : Except PyErr α) >>= f = .error e := rfl

theorem map_ok_eq {α β : Type} (a : α) (f : α → β) :
    (Except.ok a : Except PyErr α).map f = .ok (f a) := rfl

theorem map_error_eq {α β : Type} (e : PyErr) (f : α → β) :
    (Except.error e : Except PyErr α).map f = .error e := rfl

theorem unpicklePhones_cons_str (s : String) (rest : List PVal) :
    unpicklePhones (.pStr s :: rest) = (unpicklePhones rest).map fun l => s :: l := rfl

theorem unpicklePhones_roundtrip (l : List String) :
    unpicklePhones (l.map .pStr) = .ok l := by
  induction l with
  | nil => rfl
  | cons x xs ih =>
    rw [List.map_cons, unpicklePhones_cons_str, ih, map_ok_eq]

theorem unpickleRecord_roundtrip (r : Record) :
    unpickleRecord (pickleRecord r) = .ok r := by
  obtain ⟨n, ps, bd⟩ := r
  cases bd with
  | none =>
    show (do
      let phones ← unpicklePhones (ps.map .pStr)
      pure (⟨n, phones, none⟩ : Record)) = Except.ok ⟨n, ps, none⟩
    rw [unpicklePhones_roundtrip, bind_ok_eq]
    rfl
  | some d =>
    show (do
      let phones ← unpicklePhones (ps.map .pStr)
      pure (⟨n, phones, some ⟨d.year, d.month, d.day⟩⟩ : Record)) =
        Except.ok ⟨n, ps, some d⟩
    rw [unpicklePhones_roundtrip, bind_ok_eq]
    rfl

theorem unpickleEntries_cons_entry (k : String) (rv : PVal) (rest : List PVal) :
    unpickleEntries (.pList [.pStr k, rv] :: rest) = (do
      let r ← unpickleRecord rv
      let b ← unpickleEntries rest
      pure ((k, r) :: b)) := rfl

theorem unpickleEntries_roundtrip (b : Book) :
    unpickleEntries (b.map fun kv => .pList [.pStr kv.1, pickleRecord kv.2]) = .ok b := by
  induction b with
  | nil => rfl
  | cons kv rest ih =>
    obtain ⟨k, r⟩ := kv
    rw [List.map_cons, unpickleEntries_cons_entry, unpickleRecord_roundtrip, bind_ok_eq,
      ih, bind_ok_eq]
    rfl

theorem loadData_eq (fs : FS) :
    loadData fs = match openRead fs >>= unpickleBook with
      | .ok b => .ok b
      | .error e => if e.kind = .fileNotFoundError then .ok emptyBook else .error e := rfl

/-- C7: saving a book to the snapshot file and loading it back yields the
very same association of names to records — same names, same phone lists
(values and order), same birthdays. -/
theorem claim_C7 (b : Book) : loadData (saveData b) = .ok b := by
  have h : openRead (saveData b) >>= unpickleBook = .ok b := by
    show unpickleBook (pickleBook b) = .ok b
    unfold pickleBook unpickleBook
    exact unpickleEntries_roundtrip b
  rw [loadData_eq, h]

theorem unpicklePhones_error_only (l : List PVal) (e : PyErr)
    (h : unpicklePhones l = .error e) : e = unpickleErr := by
  induction l with
  | nil => exact Except.noConfusion h
  | cons v rest ih =>
    cases v with
    | pStr s =>
      rw [unpicklePhones_cons_str] at h
      cases hr : unpicklePhones rest with
      | error e' =>
        rw [hr, map_error_eq] at h
        exact ih (by rw [hr, Except.error.inj h])
      | ok l' =>
        rw [hr, map_ok_eq] at h
        exact Except.noConfusion h
    | pNone => exact (Except.error.inj h).symm
    | pDate y m d => exact (Except.error.inj h).symm
    | pList l' => exact (Except.error.inj h).symm

theorem unpickleRecord_error_only (v : PVal) (e : PyErr)
    (h : unpickleRecord v = .error e) : e = unpickleErr := by
  unfold unpickleRecord at h
  split at h
  · rename_i n ps bd
    cases hp : unpicklePhones ps with
    | error e' =>
      rw [hp, bind_error_eq] at h
      exact (Except.error.inj h) ▸ unpicklePhones_error_only ps e' hp
    | ok phones =>
      rw [hp, bind_ok_eq] at h
      split at h
      · exact Except.noConfusion h
      · exact Except.noConfusion h
      · exact (Except.error.inj h).symm
  · exact (Except.error.inj h).symm

theorem unpickleEntries_error_only (l : List PVal) (e : PyErr)
    (h : unpickleEntries l = .error e) : e = unpickleErr := by
  induction l with
  | nil => exact Except.noConfusion h
  | cons v rest ih =>
    cases v with
    | pStr s => exact (Except.error.inj h).symm
    | pNone => exact (Except.error.inj h).symm
    | pDate y m d => exact (Except.error.inj h).symm
    | pList lv =>
      cases lv with
      | nil => exact (Except.error.inj h).symm
      | cons a lv1 =>
        cases a with
        | pNone => exact (Except.error.inj h).symm
        | pDate y m d => exact (Except.error.inj h).symm
        | pList la => exact (Except.error.inj h).symm
        | pStr k =>
          cases lv1 with
          | nil => exact (Except.error.inj h).symm
          | cons rv lv2 =>
            cases lv2 with
            | cons c lv3 => exact (Except.error.inj h).symm
            | nil =>
              rw [unpickleEntries_cons_entry] at h
              cases hr : unpickleRecord rv with
              | error e' =>
                rw [hr, bind_error_eq] at h
                exact (Except.error.inj h) ▸ unpickleRecord_error_only rv e' hr
              | ok r =>
                rw [hr, bind_ok_eq] at h
                cases hb : unpickleEntries rest with
                | error e' =>
                  rw [hb, bind_error_eq] at h
                  exact ih (by rw [hb, Except.error.inj h])
                | ok bb =>
                  rw [hb, bind_ok_eq] at h
                  exact Except.noConfusion h

theorem unpickleBook_error_only (v : PVal) (e : PyErr)
    (h : unpickleBook v = .error e) : e = unpickleErr := by
  cases v with
  | pList l => exact unpickleEntries_error_only l e h
  | pStr s => exact (Except.error.inj h).symm
  | pNone => exact (Except.error.inj h).symm
  | pDate y m d => exact (Except.error.inj h).symm

/-- C6: loading with no snapshot file present yields a fresh empty book;
any other I/O failure and any deserialization failure is not caught and
propagates out of `load_data`. -/
theorem claim_C6 :
    loadData .missing = .ok emptyBook ∧
    (∀ e : PyErr, e.kind ≠ .fileNotFoundError → loadData (.ioError e) = .error e) ∧
    (∀ (v : PVal) (e : PyErr), unpickleBook v = .error e →
      loadData (.present v) = .error e) := by
  refine ⟨rfl, fun e he => ?_, fun v e h => ?_⟩
  · have h2 : openRead (.ioError e) >>= unpickleBook = .error e := rfl
    rw [loadData_eq, h2]
    exact if_neg he
  · have h2 : openRead (.present v) >>= unpickleBook = .error e := h
    rw [loadData_eq, h2]
    refine if_neg ?_
    rw [unpickleBook_error_only v e h]
    exact fun hk => ErrKind.noConfusion hk

/-- C6 witness: a permission failure propagates; corrupted snapshot bytes
propagate as an unpickling error. -/
theorem claim_C6_witness :
    loadData (.ioError ⟨.osError, "Permission denied"⟩) =
        .error ⟨.osError, "Permission denied"⟩ ∧
    loadData (.present (.pStr "garbage")) = .error unpickleErr :=
  ⟨claim_C6.2.1 ⟨.osError, "Permission denied"⟩ (by decide),
   claim_C6.2.2 (.pStr "garbage") unpickleErr rfl⟩

/-! ### C4: upcoming birthdays -/

theorem getUB_nil (today : Date) : getUpcomingBirthdays [] today = .ok [] := rfl

theorem getUB_cons_none (k nm : String) (ph : List String) (rest : Book) (today : Date) :
    getUpcomingBirthdays ((k, ⟨nm, ph, none⟩) :: rest) today =
      getUpcomingBirthdays rest today := rfl

theorem getUB_cons_some (k nm : String) (ph : List String) (bd : Date) (rest : Book)
    (today : Date) :
    getUpcomingBirthdays ((k, ⟨nm, ph, some bd⟩) :: rest) today =
      match replaceYear bd today.year with
      | .error e => .error e
      | .ok d =>
        if inWindow today d then
          (getUpcomingBirthdays rest today).map fun l => nm :: l
        else getUpcomingBirthdays rest today := rfl

theorem upcomingPred_true_iff (today : Date) (p : String × Record) :
    upcomingPred today p = true ↔
      ∃ bd, p.2.birthday = some bd ∧ inWindow today (thisYearOccur today bd) = true := by
  unfold upcomingPred
  cases h : p.2.birthday with
  | none => simp
  | some bd => simp

/-- C4 (amended): provided no stored birthday is a Feb 29 being mapped
into a non-leap current year (in which case `replace(year=...)` raises
`ValueError` out of the query instead of returning a list),
`get_upcoming_birthdays` returns exactly the names, in book order, of the
records whose birthday's month/day placed into today's year falls within
`[today, today + 7 days]` inclusive; records without a birthday are never
included. -/
theorem claim_C4 (b : Book) (today : Date)
    (hsafe : ∀ p ∈ b, ∀ bd : Date, p.2.birthday = some bd →
      validDate (thisYearOccur today bd) = true) :
    getUpcomingBirthdays b today =
      .ok ((b.filter (upcomingPred today)).map fun p => p.2.name) ∧
    (∀ nm : String,
      nm ∈ (b.filter (upcomingPred today)).map (fun p => p.2.name) ↔
        ∃ p ∈ b, p.2.name = nm ∧ ∃ bd, p.2.birthday = some bd ∧
          inWindow today (thisYearOccur today bd) = true) := by
  constructor
  · induction b with
    | nil => rfl
    | cons p rest ih =>
      obtain ⟨k, nm, ph, bd0⟩ := p
      have hsafe' : ∀ q ∈ rest, ∀ bd : Date, q.2.birthday = some bd →
          validDate (thisYearOccur today bd) = true :=
        fun q hq bd hbd => hsafe q (List.mem_cons_of_mem _ hq) bd hbd
      have ih' := ih hsafe'
      cases bd0 with
      | none =>
        rw [getUB_cons_none, List.filter_cons]
        have hpred : upcomingPred today (k, ⟨nm, ph, none⟩) = false := rfl
        rw [hpred]
        simp only [Bool.false_eq_true, if_false]
        exact ih'
      | some bd =>
        have hv : validDate (thisYearOccur today bd) = true :=
          hsafe (k, ⟨nm, ph, some bd⟩) (List.mem_cons_self _ _) bd rfl
        have hrep : replaceYear bd today.year = .ok (thisYearOccur today bd) := by
          unfold replaceYear
          exact if_pos hv
        rw [getUB_cons_some, hrep]
        show (if inWindow today (thisYearOccur today bd) = true then
            (getUpcomingBirthdays rest today).map fun l => nm :: l
          else getUpcomingBirthdays rest today) = _
        rw [List.filter_cons]
        have hpred : upcomingPred today (k, ⟨nm, ph, some bd⟩) =
            inWindow today (thisYearOccur today bd) := rfl
        rw [hpred]
        by_cases hw : inWindow today (thisYearOccur today bd) = true
        · rw [if_pos hw, if_pos hw, ih', map_ok_eq, List.map_cons]
        · rw [if_neg hw, if_neg hw, ih']
  · intro nm
    simp only [List.mem_map, List.mem_filter, upcomingPred_true_iff]
    constructor
    · rintro ⟨p, ⟨hp, bd, hbd, hw⟩, hnm⟩
      exact ⟨p, hp, hnm, bd, hbd, hw⟩
    · rintro ⟨p, hp, hnm, bd, hbd, hw⟩
      exact ⟨p, ⟨hp, bd, hbd, hw⟩, hnm⟩

/-- C4 counterexample: a record whose stored birthday is Feb 29 of a leap
year, queried in a non-leap year, makes `get_upcoming_birthdays` raise
`ValueError` instead of returning any list of names at all. -/
theorem claim_C4_counterexample :
    ¬ ∀ (b : Book) (today : Date), validDate today = true →
      ∃ out : List String, getUpcomingBirthdays b today = .ok out ∧
        ∀ nm : String, nm ∈ out ↔ ∃ p ∈ b, p.2.name = nm ∧
          ∃ bd, p.2.birthday = some bd ∧
            inWindow today (thisYearOccur today bd) = true := by
  intro hcl
  obtain ⟨out, hout, -⟩ :=
    hcl [("bob", ⟨"bob", [], some ⟨2024, 2, 29⟩⟩)] ⟨2025, 2, 25⟩ (by decide)
  rw [show getUpcomingBirthdays [("bob", ⟨"bob", [], some ⟨2024, 2, 29⟩⟩)] ⟨2025, 2, 25⟩ =
      .error ⟨.valueError, "day is out of range for month"⟩ from rfl] at hout
  exact Except.noConfusion hout

/-- C4 witness: a two-record book — one birthday inside the window, one
record without a birthday — evaluated at a fixed `today`. -/
theorem claim_C4_witness :
    getUpcomingBirthdays
        [("bob", ⟨"bob", [], some ⟨1990, 6, 20⟩⟩), ("eve", ⟨"eve", [], none⟩)]
        ⟨2025, 6, 15⟩ = .ok ["bob"] := by
  have h := (claim_C4
    [("bob", ⟨"bob", [], some ⟨1990, 6, 20⟩⟩), ("eve", ⟨"eve", [], none⟩)]
    ⟨2025, 6, 15⟩ ?_).1
  · exact h
  · intro p hp bd hbd
    rcases List.mem_cons.mp hp with rfl | hp2
    · cases Option.some.inj hbd
      decide
    · rcases List.mem_cons.mp hp2 with rfl | hp3
      · exact Option.noConfusion hbd
      · cases hp3

/-! ### C8: adding twice under one name -/

theorem findBook_none_not_mem (b : Book) (k : String) (h : findBook b k = none) :
    ∀ p ∈ b, p.1 ≠ k := by
  induction b with
  | nil => intro p hp; cases hp
  | cons q rest ih =>
    obtain ⟨k', v'⟩ := q
    rw [findBook_cons] at h
    by_cases hk : k' = k
    · rw [if_pos hk] at h; cases h
    · rw [if_neg hk] at h
      intro p hp
      rcases List.mem_cons.mp hp with rfl | hp2
      · exact hk
      · exact ih h p hp2

/-- Assignment to an absent key appends the pair at the end (dicts keep
insertion order). -/
theorem dictSet_append_of_none (b : Book) (k : String) (v : Record)
    (h : findBook b k = none) : dictSet b k v = b ++ [(k, v)] := by
  induction b with
  | nil => rfl
  | cons q rest ih =>
    obtain ⟨k', v'⟩ := q
    rw [findBook_cons] at h
    by_cases hk : k' = k
    · rw [if_pos hk] at h; cases h
    · rw [if_neg hk] at h
      rw [dictSet_cons, if_neg hk, ih h]
      rfl

theorem findBook_append_right (b : Book) (k : String) (v : Record)
    (h : findBook b k = none) : findBook (b ++ [(k, v)]) k = some v := by
  induction b with
  | nil =>
    show findBook [(k, v)] k = some v
    rw [findBook_cons, if_pos rfl]
  | cons q rest ih =>
    obtain ⟨k', v'⟩ := q
    rw [findBook_cons] at h
    by_cases hk : k' = k
    · rw [if_pos hk] at h; cases h
    · rw [if_neg hk] at h
      rw [List.cons_append, findBook_cons, if_neg hk, ih h]

theorem dictSet_append_last (b : Book) (k : String) (v v' : Record)
    (h : findBook b k = none) :
    dictSet (b ++ [(k, v)]) k v' = b ++ [(k, v')] := by
  induction b with
  | nil =>
    show dictSet [(k, v)] k v' = [(k, v')]
    rw [dictSet_cons, if_pos rfl]
  | cons q rest ih =>
    obtain ⟨k', v'2⟩ := q
    rw [findBook_cons] at h
    by_cases hk : k' = k
    · rw [if_pos hk] at h; cases h
    · rw [if_neg hk] at h
      rw [List.cons_append, dictSet_cons, if_neg hk, ih h]
      rfl

theorem count_append_key (b : Book) (k : String) (v : Record)
    (h : findBook b k = none) :
    ((b ++ [(k, v)]).map Prod.fst).count k = 1 := by
  rw [List.map_append, List.count_append]
  have h0 : (b.map Prod.fst).count k = 0 := by
    rw [List.count_eq_zero]
    intro hmem
    obtain ⟨p, hp, hpk⟩ := List.mem_map.mp hmem
    exact findBook_none_not_mem b k h p hp hpk
  rw [h0]
  simp

/-! ### C9: the key/name invariant -/

theorem BookInv_tail (q : String × Record) (rest : Book) (h : BookInv (q :: rest)) :
    BookInv rest := by
  refine ⟨fun p hp => h.1 p (List.mem_cons_of_mem _ hp), ?_⟩
  have h2 := h.2
  rw [List.map_cons, List.nodup_cons] at h2
  exact h2.2

theorem mem_map_fst_dictSet (b : Book) (k : String) (v : Record) (x : String) :
    x ∈ (dictSet b k v).map Prod.fst ↔ x ∈ b.map Prod.fst ∨ x = k := by
  induction b with
  | nil =>
    rw [dictSet_nil]
    simp
  | cons q rest ih =>
    obtain ⟨k', v'⟩ := q
    rw [dictSet_cons]
    by_cases hk : k' = k
    · rw [if_pos hk]
      simp only [List.map_cons, List.mem_cons, hk]
      tauto
    · rw [if_neg hk]
      simp only [List.map_cons, List.mem_cons, ih]
      tauto

/-- Dict assignment with a value whose name equals the key preserves the
invariant. -/
theorem dictSet_inv (k : String) (v : Record) (hname : v.name = k) :
    ∀ b : Book, BookInv b → BookInv (dictSet b k v) := by
  intro b
  induction b with
  | nil =>
    intro _
    refine ⟨fun p hp => ?_, by rw [dictSet_nil]; simp⟩
    rw [dictSet_nil] at hp
    rw [List.mem_singleton.mp hp]
    exact hname
  | cons q rest ih =>
    obtain ⟨k', v'⟩ := q
    intro hInv
    have hrest : BookInv rest := BookInv_tail _ _ hInv
    have hnd := hInv.2
    rw [List.map_cons, List.nodup_cons] at hnd
    rw [dictSet_cons]
    by_cases hk : k' = k
    · rw [if_pos hk]
      refine ⟨fun p hp => ?_, ?_⟩
      · rcases List.mem_cons.mp hp with rfl | hp2
        · exact hname
        · exact hrest.1 p hp2
      · rw [List.map_cons, List.nodup_cons]
        rw [hk] at hnd
        exact hnd
    · rw [if_neg hk]
      have hres := ih hrest
      refine ⟨fun p hp => ?_, ?_⟩
      · rcases List.mem_cons.mp hp with rfl | hp2
        · exact hInv.1 (k', v') (List.mem_cons_self _ _)
        · exact hres.1 p hp2
      · rw [List.map_cons, List.nodup_cons]
        refine ⟨fun hmem => ?_, hres.2⟩
        rcases (mem_map_fst_dictSet rest k v k').mp hmem with hin | heq
        · exact hnd.1 hin
        · exact hk heq

theorem dictDel_sublist (b : Book) (k : String) : (dictDel b k).Sublist b := by
  induction b with
  | nil =>
    rw [dictDel_nil]
  | cons q rest ih =>
    obtain ⟨k', v'⟩ := q
    rw [dictDel_cons]
    by_cases hk : k' = k
    · rw [if_pos hk]
      exact List.sublist_cons_self _ _
    · rw [if_neg hk]
      exact ih.cons₂ _

theorem dictDel_inv (b : Book) (k : String) (hInv : BookInv b) :
    BookInv (dictDel b k) :=
  ⟨fun p hp => hInv.1 p ((dictDel_sublist b k).subset hp),
   hInv.2.sublist ((dictDel_sublist b k).map Prod.fst)⟩

theorem findBook_name (n : String) (r : Record) :
    ∀ b : Book, BookInv b → findBook b n = some r → r.name = n := by
  intro b
  induction b with
  | nil => intro _ h; cases h
  | cons q rest ih =>
    obtain ⟨k', v'⟩ := q
    intro hInv h
    rw [findBook_cons] at h
    by_cases hk : k' = n
    · rw [if_pos hk] at h
      cases h
      exact (hInv.1 (k', r) (List.mem_cons_self _ _)).trans hk
    · rw [if_neg hk] at h
      exact ih (BookInv_tail _ _ hInv) h

theorem addPhone_ok_name (r : Record) (p : String) (r' : Record)
    (h : r.addPhone p = .ok r') : r'.name = r.name := by
  unfold Record.addPhone at h
  cases hm : mkPhone p with
  | ok v =>
    rw [hm, map_ok_eq] at h
    cases h
    rfl
  | error e =>
    rw [hm, map_error_eq] at h
    cases h

theorem editPhone_ok_name (r : Record) (old new : String) (r' : Record)
    (h : r.editPhone old new = .ok r') : r'.name = r.name := by
  unfold Record.editPhone at h
  cases he : editPhoneList old new r.phones with
  | ok l =>
    rw [he, map_ok_eq] at h
    cases h
    rfl
  | error e =>
    rw [he, map_error_eq] at h
    cases h

theorem addBirthdayField_ok_name (r : Record) (s : String) (r' : Record)
    (h : r.addBirthdayField s = .ok r') : r'.name = r.name := by
  unfold Record.addBirthdayField at h
  cases hm : mkBirthday s with
  | ok d =>
    rw [hm, map_ok_eq] at h
    cases h
    rfl
  | error e =>
    rw [hm, map_error_eq] at h
    cases h

theorem mkRecord_ok_name (n : String) (r0 : Record) (h : mkRecord n = .ok r0) :
    r0.name = n := by
  unfold mkRecord mkName at h
  by_cases hv : nameValid n = true
  · rw [if_pos hv, map_ok_eq] at h
    cases h
    rfl
  · rw [if_neg hv, map_error_eq] at h
    cases h

theorem inputError_snd (h : List String → Book → Except PyErr String × Book)
    (args : List String) (b : Book) : (inputError h args b).2 = (h args b).2 := by
  unfold inputError
  rcases hr : h args b with ⟨res, b'⟩
  cases res with
  | ok s => rfl
  | error e =>
    show (if caughtByInputError e.kind = true then ((.ok e.msg : Except PyErr String), b')
      else ((.error e : Except PyErr String), b')).2 = b'
    split <;> rfl

theorem addContactRaw_inv (args : List String) (b : Book) (hInv : BookInv b) :
    BookInv (addContactRaw args b).2 := by
  unfold addContactRaw
  split
  · rename_i name phone rest
    split
    · rename_i r hf
      split
      · rename_i r' hap
        show BookInv (dictSet b name r')
        refine dictSet_inv name r' ?_ b hInv
        rw [addPhone_ok_name r phone r' hap]
        exact findBook_name name r b hInv hf
      · exact hInv
    · rename_i hf
      split
      · exact hInv
      · rename_i r0 hrec
        have hb1 : BookInv (addRecord b r0) :=
          dictSet_inv r0.name r0 rfl b hInv
        split
        · rename_i r' hap
          show BookInv (dictSet (addRecord b r0) name r')
          refine dictSet_inv name r' ?_ (addRecord b r0) hb1
          rw [addPhone_ok_name r0 phone r' hap]
          exact mkRecord_ok_name name r0 hrec
        · exact hb1
  · exact hInv

theorem changeContactRaw_inv (args : List String) (b : Book) (hInv : BookInv b) :
    BookInv (changeContactRaw args b).2 := by
  unfold changeContactRaw
  split
  · rename_i name oldp newp
    split
    · rename_i r hf
      split
      · rename_i r' he
        show BookInv (dictSet b name r')
        refine dictSet_inv name r' ?_ b hInv
        rw [editPhone_ok_name r oldp newp r' he]
        exact findBook_name name r b hInv hf
      · exact hInv
    · exact hInv
  · exact hInv

theorem addBirthdayRaw_inv (args : List String) (b : Book) (hInv : BookInv b) :
    BookInv (addBirthdayRaw args b).2 := by
  unfold addBirthdayRaw
  split
  · rename_i name bds
    split
    · rename_i r hf
      split
      · rename_i r' he
        show BookInv (dictSet b name r')
        refine dictSet_inv name r' ?_ b hInv
        rw [addBirthdayField_ok_name r bds r' he]
        exact findBook_name name r b hInv hf
      · exact hInv
    · exact hInv
  · exact hInv

theorem showPhoneRaw_snd (args : List String) (b : Book) : (showPhoneRaw args b).2 = b := by
  unfold showPhoneRaw
  split
  · split <;> rfl
  · rfl

theorem showBirthdayRaw_snd (args : List String) (b : Book) :
    (showBirthdayRaw args b).2 = b := by
  unfold showBirthdayRaw
  split
  · split
    · split <;> rfl
    · rfl
  · rfl

theorem birthdaysRaw_snd (today : Date) (args : List String) (b : Book) :
    (birthdaysRaw today args b).2 = b := by
  unfold birthdaysRaw
  split
  · rfl
  · split <;> rfl

/-- C9: the AddressBook invariant — every stored record's internal name
equals its key, keys unique — holds of the result of `add_record` and
`delete` from any invariant-satisfying book, is respected by `find`, and
is preserved by every command handler. -/
theorem claim_C9 (b : Book) (hInv : BookInv b) :
    (∀ r : Record, BookInv (addRecord b r)) ∧
    (∀ (n : String) (r : Record), findBook b n = some r → r.name = n) ∧
    (∀ n : String, BookInv (deleteRecord b n)) ∧
    (∀ args : List String, BookInv (addContact args b).2) ∧
    (∀ args : List String, BookInv (changeContact args b).2) ∧
    (∀ args : List String, BookInv (showPhone args b).2) ∧
    (∀ args : List String, BookInv (showAll args b).2) ∧
    (∀ args : List String, BookInv (addBirthdayCmd args b).2) ∧
    (∀ args : List String, BookInv (showBirthday args b).2) ∧
    (∀ (today : Date) (args : List String), BookInv (birthdaysCmd today args b).2) := by
  refine ⟨fun r => dictSet_inv r.name r rfl b hInv,
    fun n r hf => findBook_name n r b hInv hf,
    fun n => ?_,
    fun args => ?_, fun args => ?_, fun args => ?_, fun args => ?_,
    fun args => ?_, fun args => ?_, fun today args => ?_⟩
  · unfold deleteRecord
    split
    · exact dictDel_inv b n hInv
    · exact hInv
  · rw [show addContact args b = inputError addContactRaw args b from rfl,
      inputError_snd]
    exact addContactRaw_inv args b hInv
  · rw [show changeContact args b = inputError changeContactRaw args b from rfl,
      inputError_snd]
    exact changeContactRaw_inv args b hInv
  · rw [show showPhone args b = inputError showPhoneRaw args b from rfl,
      inputError_snd, showPhoneRaw_snd]
    exact hInv
  · rw [show showAll args b = inputError showAllRaw args b from rfl,
      inputError_snd]
    exact hInv
  · rw [show addBirthdayCmd args b = inputError addBirthdayRaw args b from rfl,
      inputError_snd]
    exact addBirthdayRaw_inv args b hInv
  · rw [show showBirthday args b = inputError showBirthdayRaw args b from rfl,
      inputError_snd, showBirthdayRaw_snd]
    exact hInv
  · rw [show birthdaysCmd today args b = inputError (birthdaysRaw today) args b from rfl,
      inputError_snd, birthdaysRaw_snd]
    exact hInv

/-- C9 witness: the invariant after an `add` on the empty book. -/
theorem claim_C9_witness :
    BookInv ((addContact ["alice", "1234567890"] []).2) := by
  have hInv : BookInv ([] : Book) := ⟨fun p hp => absurd hp (List.not_mem_nil p), by simp⟩
  exact (claim_C9 [] hInv).2.2.2.1 ["alice", "1234567890"]

/-! ### C8 (continued): the add handler, absent and present cases -/

theorem findBook_dictSet_self (b : Book) (k : String) (v : Record) :
    findBook (dictSet b k v) k = some v := by
  induction b with
  | nil => rw [dictSet_nil, findBook_cons, if_pos rfl]
  | cons q rest ih =>
    obtain ⟨k', v'⟩ := q
    rw [dictSet_cons]
    by_cases hk : k' = k
    · rw [if_pos hk, findBook_cons, if_pos rfl]
    · rw [if_neg hk, findBook_cons, if_neg hk]
      exact ih

theorem count_key_dictSet (b : Book) (k : String) (v : Record)
    (hnd : (b.map Prod.fst).Nodup) :
    ((dictSet b k v).map Prod.fst).count k = 1 := by
  induction b with
  | nil =>
    rw [dictSet_nil]
    simp
  | cons q rest ih =>
    obtain ⟨k', v'⟩ := q
    rw [List.map_cons, List.nodup_cons] at hnd
    rw [dictSet_cons]
    by_cases hk : k' = k
    · rw [if_pos hk, List.map_cons, List.count_cons_self]
      have h0 : (rest.map Prod.fst).count k = 0 := by
        rw [List.count_eq_zero]
        intro hm
        refine hnd.1 ?_
        rw [hk]
        exact hm
      rw [h0]
    · rw [if_neg hk, List.map_cons, List.count_cons_of_ne fun h => hk h.symm]
      exact ih hnd.2

/-- C8: running `add n p1` then `add n p2` with valid phone strings
yields exactly one record keyed by `n` whose phone list contains both
`p1` and `p2`.  When `n` was absent (and is a valid name) the first call
answers "Contact added." and creates the record; when `n` was already
present in an invariant-satisfying book, the phones are appended to the
existing record and the first call answers "Contact updated.".  The
second call always answers "Contact updated.". -/
theorem claim_C8 (b : Book) (n p1 p2 : String)
    (hp1 : phoneValidate p1 = true) (hp2 : phoneValidate p2 = true) :
    (findBook b n = none → nameValid n = true →
      addContact [n, p1] b = (.ok "Contact added.", b ++ [(n, ⟨n, [p1], none⟩)]) ∧
      addContact [n, p2] (b ++ [(n, ⟨n, [p1], none⟩)]) =
        (.ok "Contact updated.", b ++ [(n, ⟨n, [p1, p2], none⟩)]) ∧
      findBook (b ++ [(n, ⟨n, [p1, p2], none⟩)]) n = some ⟨n, [p1, p2], none⟩ ∧
      ((b ++ [(n, (⟨n, [p1, p2], none⟩ : Record))]).map Prod.fst).count n = 1) ∧
    (∀ r : Record, findBook b n = some r → BookInv b →
      addContact [n, p1] b =
        (.ok "Contact updated.", dictSet b n ⟨r.name, r.phones ++ [p1], r.birthday⟩) ∧
      addContact [n, p2] (dictSet b n ⟨r.name, r.phones ++ [p1], r.birthday⟩) =
        (.ok "Contact updated.",
          dictSet (dictSet b n ⟨r.name, r.phones ++ [p1], r.birthday⟩) n
            ⟨r.name, r.phones ++ [p1] ++ [p2], r.birthday⟩) ∧
      findBook (dictSet (dictSet b n ⟨r.name, r.phones ++ [p1], r.birthday⟩) n
          ⟨r.name, r.phones ++ [p1] ++ [p2], r.birthday⟩) n =
        some ⟨r.name, r.phones ++ [p1] ++ [p2], r.birthday⟩ ∧
      p1 ∈ r.phones ++ [p1] ++ [p2] ∧ p2 ∈ r.phones ++ [p1] ++ [p2] ∧
      ((dictSet (dictSet b n ⟨r.name, r.phones ++ [p1], r.birthday⟩) n
          ⟨r.name, r.phones ++ [p1] ++ [p2], r.birthday⟩).map Prod.fst).count n = 1) := by
  constructor
  · intro habs hn
    have hrec : mkRecord n = .ok ⟨n, [], none⟩ := by
      unfold mkRecord mkName
      rw [if_pos hn]
      rfl
    have hap1 : Record.addPhone ⟨n, [], none⟩ p1 = .ok ⟨n, [p1], none⟩ := by
      unfold Record.addPhone mkPhone
      rw [if_pos hp1]
      rfl
    have hb1 : dictSet b n (⟨n, [], none⟩ : Record) = b ++ [(n, ⟨n, [], none⟩)] :=
      dictSet_append_of_none b n _ habs
    have hset1 : dictSet (b ++ [(n, ⟨n, [], none⟩)]) n ⟨n, [p1], none⟩ =
        b ++ [(n, ⟨n, [p1], none⟩)] :=
      dictSet_append_last b n _ _ habs
    have hfind2 : findBook (b ++ [(n, ⟨n, [p1], none⟩)]) n = some ⟨n, [p1], none⟩ :=
      findBook_append_right b n _ habs
    have hap2 : Record.addPhone ⟨n, [p1], none⟩ p2 = .ok ⟨n, [p1, p2], none⟩ := by
      unfold Record.addPhone mkPhone
      rw [if_pos hp2]
      rfl
    have hset2 : dictSet (b ++ [(n, ⟨n, [p1], none⟩)]) n ⟨n, [p1, p2], none⟩ =
        b ++ [(n, ⟨n, [p1, p2], none⟩)] :=
      dictSet_append_last b n _ _ habs
    refine ⟨?_, ?_, findBook_append_right b n _ habs, count_append_key b n _ habs⟩
    · simp only [addContact, inputError, addContactRaw, addRecord, habs, hrec, hap1,
        hb1, hset1]
    · simp only [addContact, inputError, addContactRaw, hfind2, hap2, hset2]
  · intro r hf hInv
    have hname : r.name = n := findBook_name n r b hInv hf
    have hap1 : Record.addPhone r p1 = .ok ⟨r.name, r.phones ++ [p1], r.birthday⟩ := by
      unfold Record.addPhone mkPhone
      rw [if_pos hp1]
      rfl
    have hf2 : findBook (dictSet b n ⟨r.name, r.phones ++ [p1], r.birthday⟩) n =
        some ⟨r.name, r.phones ++ [p1], r.birthday⟩ :=
      findBook_dictSet_self b n _
    have hap2 : Record.addPhone ⟨r.name, r.phones ++ [p1], r.birthday⟩ p2 =
        .ok ⟨r.name, r.phones ++ [p1] ++ [p2], r.birthday⟩ := by
      unfold Record.addPhone mkPhone
      rw [if_pos hp2]
      rfl
    have hnd1 : ((dictSet b n ⟨r.name, r.phones ++ [p1], r.birthday⟩).map Prod.fst).Nodup :=
      (dictSet_inv n ⟨r.name, r.phones ++ [p1], r.birthday⟩ hname b hInv).2
    refine ⟨?_, ?_, findBook_dictSet_self _ n _, by simp, by simp,
      count_key_dictSet _ n _ hnd1⟩
    · simp only [addContact, inputError, addContactRaw, hf, hap1]
    · simp only [addContact, inputError, addContactRaw, hf2, hap2]

/-- C8 witness: the spec's own example, `add alice 1234567890` then
`add alice 1234567891` on an empty book. -/
theorem claim_C8_witness :
    addContact ["alice", "1234567890"] [] =
      (.ok "Contact added.", [("alice", ⟨"alice", ["1234567890"], none⟩)]) ∧
    addContact ["alice", "1234567891"] [("alice", ⟨"alice", ["1234567890"], none⟩)] =
      (.ok "Contact updated.",
        [("alice", ⟨"alice", ["1234567890", "1234567891"], none⟩)]) ∧
    findBook [("alice", ⟨"alice", ["1234567890", "1234567891"], none⟩)] "alice" =
      some ⟨"alice", ["1234567890", "1234567891"], none⟩ ∧
    (([("alice", (⟨"alice", ["1234567890", "1234567891"], none⟩ : Record))]).map
      Prod.fst).count "alice" = 1 :=
  (claim_C8 [] "alice" "1234567890" "1234567891" (by decide) (by decide)).1 rfl (by decide)

/-! ### C5, C10: the handler error boundary and the unguarded parse -/

theorem caught_of_valueError (e : PyErr) (h : e.kind = .valueError) :
    caughtByInputError e.kind = true := by
  rw [h]
  rfl

theorem mkPhone_error_kind (s : String) (e : PyErr) (h : mkPhone s = .error e) :
    e.kind = .valueError := by
  unfold mkPhone at h
  split at h
  · exact Except.noConfusion h
  · rw [← Except.error.inj h]

theorem mkName_error_kind (s : String) (e : PyErr) (h : mkName s = .error e) :
    e.kind = .valueError := by
  unfold mkName at h
  split at h
  · exact Except.noConfusion h
  · rw [← Except.error.inj h]

theorem mkRecord_error_kind (s : String) (e : PyErr) (h : mkRecord s = .error e) :
    e.kind = .valueError := by
  unfold mkRecord at h
  cases hm : mkName s with
  | ok v => rw [hm, map_ok_eq] at h; exact Except.noConfusion h
  | error e' =>
    rw [hm, map_error_eq] at h
    rw [← Except.error.inj h]
    exact mkName_error_kind s e' hm

theorem addPhone_error_kind (r : Record) (p : String) (e : PyErr)
    (h : r.addPhone p = .error e) : e.kind = .valueError := by
  unfold Record.addPhone at h
  cases hm : mkPhone p with
  | ok v => rw [hm, map_ok_eq] at h; exact Except.noConfusion h
  | error e' =>
    rw [hm, map_error_eq] at h
    rw [← Except.error.inj h]
    exact mkPhone_error_kind p e' hm

theorem editPhoneList_error_kind (old new : String) (ps : List String) (e : PyErr)
    (h : editPhoneList old new ps = .error e) : e.kind = .valueError := by
  induction ps with
  | nil => exact Except.noConfusion h
  | cons p ps ih =>
    rw [editPhoneList_cons] at h
    by_cases hp : p = old
    · rw [if_pos hp] at h
      cases hm : mkPhone new with
      | ok v => rw [hm, map_ok_eq] at h; exact Except.noConfusion h
      | error e' =>
        rw [hm, map_error_eq] at h
        rw [← Except.error.inj h]
        exact mkPhone_error_kind new e' hm
    · rw [if_neg hp] at h
      cases hm : editPhoneList old new ps with
      | ok l => rw [hm, map_ok_eq] at h; exact Except.noConfusion h
      | error e' =>
        rw [hm, map_error_eq] at h
        rw [Except.error.inj h] at hm
        exact ih hm

theorem editPhone_error_kind (r : Record) (old new : String) (e : PyErr)
    (h : r.editPhone old new = .error e) : e.kind = .valueError := by
  unfold Record.editPhone at h
  cases hm : editPhoneList old new r.phones with
  | ok l => rw [hm, map_ok_eq] at h; exact Except.noConfusion h
  | error e' =>
    rw [hm, map_error_eq] at h
    rw [← Except.error.inj h]
    exact editPhoneList_error_kind old new r.phones e' hm

theorem mkBirthday_error_kind (s : String) (e : PyErr) (h : mkBirthday s = .error e) :
    e.kind = .valueError := by
  unfold mkBirthday at h
  split at h
  · split at h
    · split at h
      · exact Except.noConfusion h
      · rw [← Except.error.inj h]
    · rw [← Except.error.inj h]
  · rw [← Except.error.inj h]

theorem addBirthdayField_error_kind (r : Record) (s : String) (e : PyErr)
    (h : r.addBirthdayField s = .error e) : e.kind = .valueError := by
  unfold Record.addBirthdayField at h
  cases hm : mkBirthday s with
  | ok d => rw [hm, map_ok_eq] at h; exact Except.noConfusion h
  | error e' =>
    rw [hm, map_error_eq] at h
    rw [← Except.error.inj h]
    exact mkBirthday_error_kind s e' hm

theorem replaceYear_error_kind (d : Date) (y : Nat) (e : PyErr)
    (h : replaceYear d y = .error e) : e.kind = .valueError := by
  unfold replaceYear at h
  split at h
  · exact Except.noConfusion h
  · rw [← Except.error.inj h]

theorem getUB_error_kind (b : Book) (today : Date) (e : PyErr)
    (h : getUpcomingBirthdays b today = .error e) : e.kind = .valueError := by
  induction b with
  | nil => exact Except.noConfusion h
  | cons p rest ih =>
    obtain ⟨k, nm, ph, bd0⟩ := p
    cases bd0 with
    | none =>
      rw [getUB_cons_none] at h
      exact ih h
    | some bd =>
      rw [getUB_cons_some] at h
      cases hr : replaceYear bd today.year with
      | error e' =>
        rw [hr] at h
        rw [← Except.error.inj h]
        exact replaceYear_error_kind bd today.year e' hr
      | ok d =>
        rw [hr] at h
        have h2 : (if inWindow today d = true then
            (getUpcomingBirthdays rest today).map (fun l => nm :: l)
          else getUpcomingBirthdays rest today) = .error e := h
        by_cases hw : inWindow today d = true
        · rw [if_pos hw] at h2
          cases hu : getUpcomingBirthdays rest today with
          | ok l => rw [hu, map_ok_eq] at h2; exact Except.noConfusion h2
          | error e' =>
            rw [hu, map_error_eq] at h2
            rw [Except.error.inj h2] at hu
            exact ih hu
        · rw [if_neg hw] at h2
          exact ih h2

theorem addContactRaw_caught (args : List String) (b : Book) (e : PyErr) (b2 : Book)
    (h : addContactRaw args b = (.error e, b2)) : caughtByInputError e.kind = true := by
  unfold addContactRaw at h
  split at h
  · rename_i name phone rest
    split at h
    · rename_i r hf
      split at h
      · injection h with h1 h2
        exact Except.noConfusion h1
      · rename_i e' hap
        injection h with h1 h2
        rw [← Except.error.inj h1]
        exact caught_of_valueError e' (addPhone_error_kind r phone e' hap)
    · rename_i hf
      split at h
      · rename_i e' hrec
        injection h with h1 h2
        rw [← Except.error.inj h1]
        exact caught_of_valueError e' (mkRecord_error_kind name e' hrec)
      · rename_i r0 hrec
        split at h
        · injection h with h1 h2
          exact Except.noConfusion h1
        · rename_i e' hap
          injection h with h1 h2
          rw [← Except.error.inj h1]
          exact caught_of_valueError e' (addPhone_error_kind r0 phone e' hap)
  · injection h with h1 h2
    rw [← Except.error.inj h1]
    rfl

theorem changeContactRaw_caught (args : List String) (b : Book) (e : PyErr) (b2 : Book)
    (h : changeContactRaw args b = (.error e, b2)) : caughtByInputError e.kind = true := by
  unfold changeContactRaw at h
  split at h
  · rename_i name oldp newp
    split at h
    · rename_i r hf
      split at h
      · injection h with h1 h2
        exact Except.noConfusion h1
      · rename_i e' he
        injection h with h1 h2
        rw [← Except.error.inj h1]
        exact caught_of_valueError e' (editPhone_error_kind r oldp newp e' he)
    · injection h with h1 h2
      exact Except.noConfusion h1
  · injection h with h1 h2
    rw [← Except.error.inj h1]
    rfl

theorem showPhoneRaw_caught (args : List String) (b : Book) (e : PyErr) (b2 : Book)
    (h : showPhoneRaw args b = (.error e, b2)) : caughtByInputError e.kind = true := by
  unfold showPhoneRaw at h
  split at h
  · split at h
    · injection h with h1 h2
      exact Except.noConfusion h1
    · injection h with h1 h2
      exact Except.noConfusion h1
  · injection h with h1 h2
    rw [← Except.error.inj h1]
    rfl

theorem showAllRaw_caught (args : List String) (b : Book) (e : PyErr) (b2 : Book)
    (h : showAllRaw args b = (.error e, b2)) : caughtByInputError e.kind = true := by
  injection h with h1 h2
  exact Except.noConfusion h1

theorem addBirthdayRaw_caught (args : List String) (b : Book) (e : PyErr) (b2 : Book)
    (h : addBirthdayRaw args b = (.error e, b2)) : caughtByInputError e.kind = true := by
  unfold addBirthdayRaw at h
  split at h
  · rename_i name bds
    split at h
    · rename_i r hf
      split at h
      · injection h with h1 h2
        exact Except.noConfusion h1
      · rename_i e' he
        injection h with h1 h2
        rw [← Except.error.inj h1]
        exact caught_of_valueError e' (addBirthdayField_error_kind r bds e' he)
    · injection h with h1 h2
      exact Except.noConfusion h1
  · injection h with h1 h2
    rw [← Except.error.inj h1]
    rfl

theorem showBirthdayRaw_caught (args : List String) (b : Book) (e : PyErr) (b2 : Book)
    (h : showBirthdayRaw args b = (.error e, b2)) : caughtByInputError e.kind = true := by
  unfold showBirthdayRaw at h
  split at h
  · split at h
    · split at h
      · injection h with h1 h2
        exact Except.noConfusion h1
      · injection h with h1 h2
        exact Except.noConfusion h1
    · injection h with h1 h2
      exact Except.noConfusion h1
  · injection h with h1 h2
    rw [← Except.error.inj h1]
    rfl

theorem birthdaysRaw_caught (today : Date) (args : List String) (b : Book) (e : PyErr)
    (b2 : Book) (h : birthdaysRaw today args b = (.error e, b2)) :
    caughtByInputError e.kind = true := by
  unfold birthdaysRaw at h
  split at h
  · rename_i e' hg
    injection h with h1 h2
    rw [← Except.error.inj h1]
    exact caught_of_valueError e' (getUB_error_kind b today e' hg)
  · split at h
    · injection h with h1 h2
      exact Except.noConfusion h1
    · injection h with h1 h2
      exact Except.noConfusion h1

/-- A caught error comes back from the decorated handler as its message,
with the book exactly as the raw handler left it. -/
theorem inputError_of_error (hh : List String → Book → Except PyErr String × Book)
    (args : List String) (b : Book) (e : PyErr) (b2 : Book)
    (hr : hh args b = (.error e, b2)) (hc : caughtByInputError e.kind = true) :
    inputError hh args b = (.ok e.msg, b2) := by
  unfold inputError
  rw [hr]
  show (if caughtByInputError e.kind = true then ((.ok e.msg : Except PyErr String), b2)
    else ((.error e : Except PyErr String), b2)) = ((.ok e.msg : Except PyErr String), b2)
  rw [if_pos hc]

/-- A decorated handler whose raw errors are all of caught classes never
lets an exception escape. -/
theorem inputError_total (hh : List String → Book → Except PyErr String × Book)
    (args : List String) (b : Book)
    (hck : ∀ e b2, hh args b = (.error e, b2) → caughtByInputError e.kind = true) :
    ∃ s b2, inputError hh args b = (.ok s, b2) := by
  rcases hr : hh args b with ⟨res, b'⟩
  cases res with
  | ok s =>
    refine ⟨s, b', ?_⟩
    unfold inputError
    rw [hr]
  | error e =>
    exact ⟨e.msg, b', inputError_of_error hh args b e b' hr (hck e b' hr)⟩

/-- The dispatch of one parsed command never produces a crash: every
branch either exits, prints, or runs a decorated handler that catches its
own errors. -/
theorem dispatch_no_crash (c : String) (args : List String) (b : Book) (today : Date)
    (e : PyErr) :
    (if c = "close" || c = "exit" then StepResult.exit "Good bye!" (saveData b)
    else if c = "hello" then .cont "How can I help you?" b
    else if c = "add" then runH (addContact args b)
    else if c = "change" then runH (changeContact args b)
    else if c = "phone" then runH (showPhone args b)
    else if c = "all" then runH (showAll args b)
    else if c = "add-birthday" then runH (addBirthdayCmd args b)
    else if c = "show-birthday" then runH (showBirthday args b)
    else if c = "birthdays" then runH (birthdaysCmd today args b)
    else .cont "Invalid command." b) ≠ .crash e := by
  intro hcontra
  split at hcontra
  · exact StepResult.noConfusion hcontra
  · split at hcontra
    · exact StepResult.noConfusion hcontra
    · split at hcontra
      · obtain ⟨s, b2, hw⟩ := inputError_total addContactRaw args b
          (fun e' b2 h => addContactRaw_caught args b e' b2 h)
        rw [show addContact args b = inputError addContactRaw args b from rfl, hw] at hcontra
        exact StepResult.noConfusion hcontra
      · split at hcontra
        · obtain ⟨s, b2, hw⟩ := inputError_total changeContactRaw args b
            (fun e' b2 h => changeContactRaw_caught args b e' b2 h)
          rw [show changeContact args b = inputError changeContactRaw args b from rfl,
            hw] at hcontra
          exact StepResult.noConfusion hcontra
        · split at hcontra
          · obtain ⟨s, b2, hw⟩ := inputError_total showPhoneRaw args b
              (fun e' b2 h => showPhoneRaw_caught args b e' b2 h)
            rw [show showPhone args b = inputError showPhoneRaw args b from rfl,
              hw] at hcontra
            exact StepResult.noConfusion hcontra
          · split at hcontra
            · obtain ⟨s, b2, hw⟩ := inputError_total showAllRaw args b
                (fun e' b2 h => showAllRaw_caught args b e' b2 h)
              rw [show showAll args b = inputError showAllRaw args b from rfl,
                hw] at hcontra
              exact StepResult.noConfusion hcontra
            · split at hcontra
              · obtain ⟨s, b2, hw⟩ := inputError_total addBirthdayRaw args b
                  (fun e' b2 h => addBirthdayRaw_caught args b e' b2 h)
                rw [show addBirthdayCmd args b = inputError addBirthdayRaw args b from rfl,
                  hw] at hcontra
                exact StepResult.noConfusion hcontra
              · split at hcontra
                · obtain ⟨s, b2, hw⟩ := inputError_total showBirthdayRaw args b
                    (fun e' b2 h => showBirthdayRaw_caught args b e' b2 h)
                  rw [show showBirthday args b = inputError showBirthdayRaw args b from rfl,
                    hw] at hcontra
                  exact StepResult.noConfusion hcontra
                · split at hcontra
                  · obtain ⟨s, b2, hw⟩ := inputError_total (birthdaysRaw today) args b
                      (fun e' b2 h => birthdaysRaw_caught today args b e' b2 h)
                    rw [show birthdaysCmd today args b =
                      inputError (birthdaysRaw today) args b from rfl, hw] at hcontra
                    exact StepResult.noConfusion hcontra
                  · exact StepResult.noConfusion hcontra

/-- C5: every error a decorated handler raises internally is of a caught
class (`ValueError`, `KeyError`, `IndexError`) and is rendered as its
message text with the loop continuing: each wrapped handler maps a raw
error to a plain-output answer, and for every input line that parses into
at least one token, one loop iteration never crashes. -/
theorem claim_C5 :
    (∀ (args : List String) (b : Book) (e : PyErr) (b2 : Book),
      addContactRaw args b = (.error e, b2) → addContact args b = (.ok e.msg, b2)) ∧
    (∀ (args : List String) (b : Book) (e : PyErr) (b2 : Book),
      changeContactRaw args b = (.error e, b2) → changeContact args b = (.ok e.msg, b2)) ∧
    (∀ (args : List String) (b : Book) (e : PyErr) (b2 : Book),
      showPhoneRaw args b = (.error e, b2) → showPhone args b = (.ok e.msg, b2)) ∧
    (∀ (args : List String) (b : Book) (e : PyErr) (b2 : Book),
      addBirthdayRaw args b = (.error e, b2) → addBirthdayCmd args b = (.ok e.msg, b2)) ∧
    (∀ (args : List String) (b : Book) (e : PyErr) (b2 : Book),
      showBirthdayRaw args b = (.error e, b2) → showBirthday args b = (.ok e.msg, b2)) ∧
    (∀ (today : Date) (args : List String) (b : Book) (e : PyErr) (b2 : Book),
      birthdaysRaw today args b = (.error e, b2) →
        birthdaysCmd today args b = (.ok e.msg, b2)) ∧
    (∀ (line : String) (b : Book) (today : Date), pySplit line ≠ [] →
      ∀ e : PyErr, mainStep line b today ≠ .crash e) := by
  refine ⟨fun args b e b2 h =>
      inputError_of_error addContactRaw args b e b2 h (addContactRaw_caught args b e b2 h),
    fun args b e b2 h =>
      inputError_of_error changeContactRaw args b e b2 h
        (changeContactRaw_caught args b e b2 h),
    fun args b e b2 h =>
      inputError_of_error showPhoneRaw args b e b2 h (showPhoneRaw_caught args b e b2 h),
    fun args b e b2 h =>
      inputError_of_error addBirthdayRaw args b e b2 h
        (addBirthdayRaw_caught args b e b2 h),
    fun args b e b2 h =>
      inputError_of_error showBirthdayRaw args b e b2 h
        (showBirthdayRaw_caught args b e b2 h),
    fun today args b e b2 h =>
      inputError_of_error (birthdaysRaw today) args b e b2 h
        (birthdaysRaw_caught today args b e b2 h),
    fun line b today hne e => ?_⟩
  cases hs : pySplit line with
  | nil => exact absurd hs hne
  | cons cmd args =>
    have hp : parseInput line = .ok (pyLower (pyStripStr cmd), args) := by
      unfold parseInput
      rw [hs]
    intro hcontra
    unfold mainStep at hcontra
    rw [hp] at hcontra
    exact dispatch_no_crash (pyLower (pyStripStr cmd)) args b today e hcontra

/-- C5 witness: a missing-argument `ValueError` inside `add_contact`
comes back as its message; a well-formed line never crashes the loop. -/
theorem claim_C5_witness :
    addContact [] [] = (.ok "Please provide both name and phone number.", []) ∧
    mainStep "hello" [] ⟨2025, 1, 1⟩ ≠ .crash ⟨.valueError, "boom"⟩ :=
  ⟨claim_C5.1 [] [] ⟨.valueError, "Please provide both name and phone number."⟩ [] rfl,
   claim_C5.2.2.2.2.2.2 "hello" [] ⟨2025, 1, 1⟩ (by decide) ⟨.valueError, "boom"⟩⟩

theorem pySplitAux_cons (c : Char) (rest acc : List Char) :
    pySplitAux (c :: rest) acc =
      if pyIsSpace c then
        (if acc = [] then pySplitAux rest [] else acc.reverse :: pySplitAux rest [])
      else pySplitAux rest (c :: acc) := rfl

theorem pySplitAux_all_space (l : List Char) (h : ∀ c ∈ l, pyIsSpace c = true) :
    pySplitAux l [] = [] := by
  induction l with
  | nil => rfl
  | cons c rest ih =>
    rw [pySplitAux_cons, if_pos (h c (List.mem_cons_self _ _)), if_pos rfl]
    exact ih fun c hc => h c (List.mem_cons_of_mem _ hc)

/-- C10: a line of only whitespace splits into no tokens, so the starred
unpacking in `parse_input` raises `ValueError`; `parse_input` is called
outside every handler boundary in `main`, so the iteration crashes the
loop instead of printing an error message. -/
theorem claim_C10 (line : String) (b : Book) (today : Date)
    (h : ∀ c ∈ line.data, pyIsSpace c = true) :
    mainStep line b today =
      .crash ⟨.valueError, "not enough values to unpack (expected at least 1, got 0)"⟩ := by
  have hs : pySplit line = [] := by
    unfold pySplit
    rw [pySplitAux_all_space line.data h]
    rfl
  have hp : parseInput line =
      .error ⟨.valueError, "not enough values to unpack (expected at least 1, got 0)"⟩ := by
    unfold parseInput
    rw [hs]
  unfold mainStep
  rw [hp]

/-- C10 witness: a line of spaces and a tab crashes the loop. -/
theorem claim_C10_witness :
    mainStep "  \t " [] ⟨2025, 1, 1⟩ =
      .crash ⟨.valueError, "not enough values to unpack (expected at least 1, got 0)"⟩ :=
  claim_C10 "  \t " [] ⟨2025, 1, 1⟩ (by decide)

end AB
